import Mathlib

/-!
Verification of the Energy-System analytical core.

This file shallowly embeds the forecasting and trend-analysis core of the
repository (files `ml_predictor.py`, `utils.py`, and the voltage alert
classification inside `app.py`) and proves the frozen claims about it.

Modelling conventions:
* Python floats are modelled as exact rationals (`ℚ`); float literals such as
  `1.05` become the exact rational `21/20`. Where a claim's verdict depends on
  IEEE-754 rounding — the voltage thresholds of app.py lines 993-996 — the
  constants are instead the exact rational values of the source's double
  computations (e.g. `220 * 1.1` is `242.00000000000003`, not `242`).
* `datetime` objects are modelled at hour granularity: a timestamp is an
  absolute hour count since an epoch that falls on a Monday midnight.
  The code only uses `.hour`, `.weekday()` and `+ timedelta(hours=k)`.
* Python dicts built by insertion are modelled as association lists in
  insertion order (CPython dicts iterate in insertion order).
* `np.random.normal(1.0, 0.05)` in `predict` is modelled as an arbitrary
  per-step factor supplied as an explicit argument `noise : Nat → ℚ`.
* Division in `ℚ` is total (`x / 0 = 0`), while numpy propagates `inf`/`nan`.
  The embedded `train` therefore additionally records, in the `divZero` field
  of its result, whether the MAPE computation (ml_predictor.py line 90)
  divided by a zero actual value anywhere in its call tree; score and state
  are faithful to the Python code exactly when the divisions that feed them
  had nonzero denominators.
-/

/-- A `datetime` at hour granularity: `absHour` counts whole hours since a
Monday-midnight epoch. -/
structure Timestamp where
  absHour : Nat
deriving DecidableEq, Repr

/-- `datetime.hour`. -/
def Timestamp.hour (t : Timestamp) : Nat := t.absHour % 24

/-- `datetime.weekday()` (0 = Monday with our epoch convention). -/
def Timestamp.weekday (t : Timestamp) : Nat := t.absHour / 24 % 7

/-- `t + timedelta(hours=k)`. -/
def Timestamp.addHours (t : Timestamp) (k : Nat) : Timestamp := ⟨t.absHour + k⟩

/- The library marks the arithmetic of `ℚ` irreducible; restore the default
reducibility inside this file so that concrete instances of the embedded
functions can be evaluated by `decide`. -/
attribute [local semireducible] Rat.mul Rat.add Rat.sub Rat.inv

/-- One historical data record, with the fields the analytical core reads. -/
structure Sample where
  energy_produced : ℚ
  energy_consumed : ℚ
  ts : Timestamp
deriving DecidableEq, Repr

/-- `np.mean` on a list (unused on empty lists in the code paths embedded). -/
def mean (l : List ℚ) : ℚ := l.sum / l.length

/-- `d.get(k, dflt)` on an association list. -/
def lookupD (l : List (Nat × ℚ)) (k : Nat) (dflt : ℚ) : ℚ := (l.lookup k).getD dflt

/-- The state of `EnergyPredictor` (ml_predictor.py lines 11-16); `none`
models Python `None`. -/
structure Predictor where
  is_trained : Bool
  hourly_patterns : Option (List (Nat × ℚ))
  daily_patterns : Option (List (Nat × ℚ))
  baseline : Option ℚ
  validation_score : Option ℚ
deriving DecidableEq, Repr

/-- `EnergyPredictor.__init__`. -/
def initPredictor : Predictor := ⟨false, none, none, none, none⟩

/-- Result of one `train` call: the returned score, the predictor state after
the call, and the division-by-zero instrumentation flag (see header). -/
structure TrainResult where
  score : ℚ
  st : Predictor
  divZero : Bool
deriving DecidableEq, Repr

/-- Keys of a Python dict in insertion order: first occurrence wins. -/
def dedupKeys (ks : List Nat) : List Nat :=
  ks.foldl (fun acc k => if k ∈ acc then acc else acc ++ [k]) []

/-- `np.mean(consumption)` — the baseline (ml_predictor.py line 31). -/
def baselineOf (data : List Sample) : ℚ := mean (data.map (·.energy_consumed))

/-- The grouped-ratio averaging of ml_predictor.py lines 34-48 (hourly) and
51-65 (daily), abstracted over the grouping key. Each sample contributes the
ratio `energy_consumed / max(1, baseline)` to its key's group; the pattern for
a key is the mean of its group (the `else 1.0` branch of the source is kept,
though groups are nonempty by construction). -/
def patternsOf (keyOf : Sample → Nat) (data : List Sample) : List (Nat × ℚ) :=
  let b := baselineOf data
  (dedupKeys (data.map keyOf)).map (fun k =>
    let g := (data.filter (fun d => keyOf d == k)).map (fun d => d.energy_consumed / max 1 b)
    (k, if g.isEmpty then 1 else mean g))

/-- `self.hourly_patterns` as computed by `train`. -/
def hourlyOf (data : List Sample) : List (Nat × ℚ) := patternsOf (fun d => d.ts.hour) data

/-- `self.daily_patterns` as computed by `train`. -/
def dailyOf (data : List Sample) : List (Nat × ℚ) := patternsOf (fun d => d.ts.weekday) data

/-- One point prediction `baseline * hour_factor * day_factor` with the
`dict.get(key, 1.0)` defaults (ml_predictor.py lines 82-86 and 121-128). -/
def predOne (p : Predictor) (t : Timestamp) : ℚ :=
  p.baseline.getD 0 * lookupD (p.hourly_patterns.getD []) t.hour 1
    * lookupD (p.daily_patterns.getD []) t.weekday 1

/-- The MAPE of ml_predictor.py line 90: `mean(|(actual - predicted)/actual|) * 100`
over the holdout samples, predicting with the throwaway predictor `temp`. -/
def mapeOfTemp (temp : Predictor) (te : List Sample) : ℚ :=
  mean (te.map (fun d => |(d.energy_consumed - predOne temp d.ts) / d.energy_consumed|)) * 100

/-- The predictor state at the end of a successful `train` run: all profile
fields replaced, `is_trained` set. -/
def trainedState (data : List Sample) (score : ℚ) : Predictor :=
  ⟨true, some (hourlyOf data), some (dailyOf data), some (baselineOf data), some score⟩

/-- The `len(historical_data) > 48` validation arm of `train`
(ml_predictor.py lines 68-91), given the result of the recursive call on
`historical_data[:-24]`. The `divZero` flag ORs the recursive flag with
"some holdout actual is zero" (the unguarded denominators of line 90). -/
def finishTrain (data : List Sample) (tempRes : TrainResult) : TrainResult :=
  let te := data.drop (data.length - 24)
  let mape := mapeOfTemp tempRes.st te
  ⟨max 0 (100 - mape), trainedState data (max 0 (100 - mape)),
    tempRes.divZero || te.any (fun d => decide (d.energy_consumed = 0))⟩

/-- `EnergyPredictor.train` (ml_predictor.py lines 18-96) as a state
transformer: takes the pre-call state and the input list, returns the returned
score, the post-call state and the instrumentation flag. -/
def train (st : Predictor) (data : List Sample) : TrainResult :=
  if data.length < 24 then ⟨0, st, false⟩
  else if h48 : 48 < data.length then
    finishTrain data (train initPredictor (data.take (data.length - 24)))
  else ⟨70, trainedState data 70, false⟩
termination_by data.length
decreasing_by simp [List.length_take]; omega

/-- Fuelled variant of `train`, identical step for step but returning `none`
when the fuel runs out; used to state that the recursion of `train`
terminates within `length / 24 + 1` nested calls. -/
def trainF : Nat → Predictor → List Sample → Option TrainResult
  | 0, _, _ => none
  | fuel + 1, st, data =>
    if data.length < 24 then some ⟨0, st, false⟩
    else if 48 < data.length then
      (trainF fuel initPredictor (data.take (data.length - 24))).map (finishTrain data)
    else some ⟨70, trainedState data 70, false⟩

/-- Round-half-to-even to an integer (Python's `round` rule). -/
def roundHalfEven (q : ℚ) : ℤ :=
  if q - ⌊q⌋ < 1/2 then ⌊q⌋
  else if 1/2 < q - ⌊q⌋ then ⌊q⌋ + 1
  else if ⌊q⌋ % 2 = 0 then ⌊q⌋ else ⌊q⌋ + 1

/-- Python `round(x, 1)`. -/
def roundPy1 (x : ℚ) : ℚ := (roundHalfEven (10 * x) : ℚ) / 10

/-- `EnergyPredictor.predict` (ml_predictor.py lines 98-134). `noise i` stands
for the draw `np.random.normal(1.0, 0.05)` at step `i`; `now` stands for
`datetime.now()` (read only when untrained-free path runs with empty data). -/
def predict (st : Predictor) (data : List Sample) (horizon : Nat)
    (noise : Nat → ℚ) (now : Timestamp) : List ℚ :=
  if st.is_trained = false then
    match data.getLast? with
    | some d => List.replicate horizon d.energy_consumed
    | none => List.replicate horizon 50
  else
    let last := match data.getLast? with
      | some d => d.ts
      | none => now
    (List.range horizon).map (fun i =>
      let t := last.addHours (i + 1)
      let p := predOne st t * noise i
      roundPy1 (max 10 (min 200 p)))

/-- Consumption trend direction. -/
inductive Trend where
  | increasing
  | decreasing
  | neutral
deriving DecidableEq, Repr

/-- Dict lookup on an insertion-ordered association list (first key wins,
as in a Python dict, whose keys are unique anyway). -/
def alookup : List (Nat × Nat) → Nat → Option Nat
  | [], _ => none
  | (k, v) :: tl, h => if h = k then some v else alookup tl h

/-- `d[h] += 1`: bump the value stored under key `h` (keys are unique, so
bumping every pair with that key is the dict update). -/
def bumpKey : List (Nat × Nat) → Nat → List (Nat × Nat)
  | [], _ => []
  | (k, v) :: tl, h => (if k = h then (k, v + 1) else (k, v)) :: bumpKey tl h

/-- `if hour not in peak_hours: peak_hours[hour] = 0` (utils.py lines 131-132):
insert the key with 0 if absent (at the end, preserving insertion order). -/
def peakEnsure (acc : List (Nat × Nat)) (h : Nat) : List (Nat × Nat) :=
  if (alookup acc h).isSome then acc else acc ++ [(h, 0)]

/-- The peak-hours accumulation step of utils.py lines 129-136 for one sample:
first ensure the hour is a key (with 0), then bump it when the sample's
consumption strictly exceeds the overall mean `m`. -/
def peakStep (m : ℚ) (acc : List (Nat × Nat)) (d : Sample) : List (Nat × Nat) :=
  if m < d.energy_consumed then bumpKey (peakEnsure acc d.ts.hour) d.ts.hour
  else peakEnsure acc d.ts.hour

/-- The `peak_hours` dict of utils.py lines 127-136. -/
def peakHoursOf (m : ℚ) (pts : List Sample) : List (Nat × Nat) :=
  pts.foldl (peakStep m) []

/-- The part of the `analyze_trends` return value (utils.py lines 79-142) that
the claims inspect: the two means, the trend and the peak-hour histogram.
(`max`/`min`/`std` of the statistics block are not consumed by any claim;
`std` in particular is an irrational square root.) -/
structure AnalyzeResult where
  productionMean : ℚ
  consumptionMean : ℚ
  trend : Trend
  peakHours : List (Nat × Nat)
deriving DecidableEq, Repr

/-- `analyze_trends` (utils.py lines 79-142). `21/20` is the float `1.05`. -/
def analyzeTrends (pts : List Sample) : AnalyzeResult :=
  if pts.isEmpty then ⟨0, 0, .neutral, []⟩
  else
    let consumption_values := pts.map (·.energy_consumed)
    let production_values := pts.map (·.energy_produced)
    let cmean := mean consumption_values
    let trend :=
      if 1 < pts.length then
        let first_half := consumption_values.take (consumption_values.length / 2)
        let second_half := consumption_values.drop (consumption_values.length / 2)
        if mean first_half * (21/20) < mean second_half then Trend.increasing
        else if mean second_half * (21/20) < mean first_half then Trend.decreasing
        else Trend.neutral
      else Trend.neutral
    ⟨mean production_values, cmean, trend, peakHoursOf cmean pts⟩

/-- The insights `get_trend_insights` can emit (utils.py lines 144-194), as an
inductive type; only `peakAlert` names an hour in its message. -/
inductive Insight where
  | trendUpWarning
  | trendDownSuccess
  | peakAlert (hour : Nat)
  | variabilityWarning
  | capacityAlert
  | stableSuccess
deriving DecidableEq, Repr

/-- The `TrendReport` fields `get_trend_insights` reads. -/
structure TrendReport where
  trend : Trend
  peak_hours : List (Nat × Nat)
  consumptionStd : ℚ
  productionMean : ℚ
  consumptionMean : ℚ
deriving DecidableEq, Repr

/-- One step of Python `max(items)` under `key=dict.get`: replace the best
pair only when the new value is strictly greater (first maximum wins ties). -/
def argmaxStep (best p : Nat × Nat) : Nat × Nat := if best.2 < p.2 then p else best

/-- `max(peak_hours, key=peak_hours.get)` (utils.py line 164): the first key
attaining the maximum value, in dict insertion order. -/
def argmaxKey (l : List (Nat × Nat)) : Nat :=
  match l with
  | [] => 0
  | p :: tl => (tl.foldl argmaxStep p).1

/-- `get_trend_insights` (utils.py lines 144-194). `7/10` is the float `0.7`. -/
def getTrendInsights (r : TrendReport) : List Insight :=
  let i1 : List Insight :=
    if r.trend = Trend.increasing then [Insight.trendUpWarning]
    else if r.trend = Trend.decreasing then [Insight.trendDownSuccess]
    else []
  let i2 := i1 ++
    (if r.peak_hours.isEmpty then []
     else
       let peak_hour := argmaxKey r.peak_hours
       let peak_count := (alookup r.peak_hours peak_hour).getD 0
       if 3 < peak_count then [Insight.peakAlert peak_hour] else [])
  let i3 := i2 ++ (if 20 < r.consumptionStd then [Insight.variabilityWarning] else [])
  let i4 := i3 ++
    (if r.productionMean < r.consumptionMean * (7/10) then [Insight.capacityAlert] else [])
  if i4.isEmpty then [Insight.stableSuccess] else i4

/-- A voltage alert's severity/direction, as set by app.py lines 997-1014. -/
inductive VoltAlert where
  | criticalHigh
  | warningHigh
  | criticalLow
  | warningLow
deriving DecidableEq, Repr

/-- `nominal_voltage * 1.1` (app.py line 993) computed, as the source does,
in IEEE-754 doubles: the double `1.1` is `4953959590107546 × 2⁻⁵²`, and the
rounded product `220 * 1.1` is the double `242.00000000000003`, whose exact
value is this rational (denominator `2⁴⁵`). It is strictly above 242. -/
def high_voltage_threshold : ℚ := 8514618045497345 / 35184372088832

/-- `nominal_voltage * 0.9` (app.py line 994) in IEEE-754 doubles: the
product rounds to exactly `198.0`. -/
def low_voltage_threshold : ℚ := 198

/-- `nominal_voltage * 1.15` (app.py line 995) in IEEE-754 doubles: the
rounded product is the double `252.99999999999997`, whose exact value is this
rational (denominator `2⁴⁵`). It is strictly below 253. -/
def critical_high_threshold : ℚ := 8901646138474495 / 35184372088832

/-- `nominal_voltage * 0.85` (app.py line 996) in IEEE-754 doubles: the
product rounds to exactly `187.0`. -/
def critical_low_threshold : ℚ := 187

/-- The voltage alert classification of `receive_hardware_data`
(app.py lines 989-1014): nominal voltage 220, first match wins, and a
non-positive reading skips classification entirely. The four thresholds are
the exact values of the source's IEEE-754 double computations (see their
definitions above); a reading parsed from the request is itself a double, so
on double-representable readings the exact-rational comparisons below agree
with the source's double comparisons. -/
def classifyVoltage (voltage : ℚ) : Option VoltAlert :=
  if 0 < voltage then
    if critical_high_threshold ≤ voltage then some VoltAlert.criticalHigh
    else if high_voltage_threshold ≤ voltage then some VoltAlert.warningHigh
    else if voltage ≤ critical_low_threshold then some VoltAlert.criticalLow
    else if voltage ≤ low_voltage_threshold then some VoltAlert.warningLow
    else none
  else none

/-- 24 hourly samples of constant consumption 100 (one full day). -/
def data24 : List Sample := (List.range 24).map (fun i => ⟨0, 100, ⟨i⟩⟩)

/-- 25 hourly samples of constant consumption 100. -/
def data25 : List Sample := (List.range 25).map (fun i => ⟨0, 100, ⟨i⟩⟩)

/-- 49 hourly samples: consumption 1 everywhere except a final sample with
consumption 0 (inside the last-24 holdout window). -/
def data49 : List Sample :=
  (List.range 49).map (fun i => if i = 48 then ⟨0, 0, ⟨i⟩⟩ else ⟨0, 1, ⟨i⟩⟩)

/-- 49 hourly samples of constant consumption 1 (no zero actuals). -/
def data49b : List Sample := (List.range 49).map (fun i => ⟨0, 1, ⟨i⟩⟩)

/-! ## Unfolding lemmas for `train` -/

theorem train_small (st : Predictor) (data : List Sample) (h : data.length < 24) :
    train st data = ⟨0, st, false⟩ := by
  rw [train]; simp [h]

theorem train_mid (st : Predictor) (data : List Sample)
    (h1 : ¬ data.length < 24) (h2 : ¬ 48 < data.length) :
    train st data = ⟨70, trainedState data 70, false⟩ := by
  rw [train]; simp [h1, h2]

theorem train_big (st : Predictor) (data : List Sample) (h48 : 48 < data.length) :
    train st data = finishTrain data (train initPredictor (data.take (data.length - 24))) := by
  have h1 : ¬ data.length < 24 := by omega
  rw [train]; simp [h1, h48]

/-! ## C9: a rejected `train` call (fewer than 24 samples) changes no field -/

/-- C9: if `train` is called with fewer than 24 samples, the whole predictor
state — every field — is exactly what it was before the call: the rejected
training run is atomic. -/
theorem train_lt24_state_unchanged (st : Predictor) (data : List Sample)
    (h : data.length < 24) : (train st data).st = st := by
  rw [train_small st data h]

/-- Witness for C9 at a previously-trained state and the empty input. -/
theorem train_lt24_state_unchanged_witness :
    (train (train initPredictor data24).st []).st = (train initPredictor data24).st :=
  train_lt24_state_unchanged _ [] (by decide)

/-! ## C1: `train` on fewer than 24 samples and the flat-fallback path -/

set_option maxRecDepth 8000 in
/-- C1 counterexample: start from a predictor previously trained on 24
samples. Calling `train` with an empty list returns 0, but the predictor is
still trained (`is_trained = true`), and `predict` does NOT take the
flat-fallback path: on a single sample with consumption 500 (and unit noise)
it forecasts the clamped trained value 100, not the flat repeat 500. -/
theorem train_lt24_fallback_counterexample :
    (train (train initPredictor data24).st []).score = 0 ∧
    (train (train initPredictor data24).st []).st.is_trained = true ∧
    predict (train (train initPredictor data24).st []).st
      [⟨0, 500, ⟨0⟩⟩] 1 (fun _ => 1) ⟨0⟩ = [100] := by
  have h0 : train initPredictor data24 = ⟨70, trainedState data24 70, false⟩ :=
    train_mid _ _ (by decide) (by decide)
  have h1 : train (train initPredictor data24).st []
      = ⟨0, (train initPredictor data24).st, false⟩ :=
    train_small _ _ (by decide)
  rw [h1]
  refine ⟨rfl, ?_, ?_⟩ <;> rw [h0] <;> decide

/-- C1 (amended): `train` with fewer than 24 samples returns 0 and leaves
`is_trained` unchanged, so `predict` uses the flat-fallback path afterwards
iff the predictor was untrained before the call — not unconditionally. -/
theorem train_lt24_returns_zero_keeps_phase (st : Predictor) (data : List Sample)
    (h : data.length < 24) :
    (train st data).score = 0 ∧ (train st data).st.is_trained = st.is_trained := by
  rw [train_small st data h]; exact ⟨rfl, rfl⟩

/-- Witness for the amended C1 at the fresh predictor and the empty input. -/
theorem train_lt24_returns_zero_keeps_phase_witness :
    (train initPredictor []).score = 0 ∧
    (train initPredictor []).st.is_trained = initPredictor.is_trained :=
  train_lt24_returns_zero_keeps_phase initPredictor [] (by decide)

/-! ## C10: termination of the recursive holdout validation -/

/-- C10: the recursion of `train` (which retrains a throwaway predictor on
the strictly shorter all-but-last-24 prefix) terminates: running the fuelled
step function with any fuel of at least `length / 24 + 1` never exhausts the
fuel and computes exactly `train`. -/
theorem train_terminates_with_linear_fuel :
    ∀ (fuel : Nat) (st : Predictor) (data : List Sample),
    data.length / 24 + 1 ≤ fuel → trainF fuel st data = some (train st data) := by
  intro fuel
  induction fuel with
  | zero => intro st data h; omega
  | succ n ih =>
    intro st data h
    by_cases h24 : data.length < 24
    · simp [trainF, h24, train_small st data h24]
    · by_cases h48 : 48 < data.length
      · have hlen : (data.take (data.length - 24)).length = data.length - 24 := by
          simp [List.length_take]
        have hfuel : (data.take (data.length - 24)).length / 24 + 1 ≤ n := by
          rw [hlen]; omega
        simp [trainF, h24, h48, ih initPredictor _ hfuel, train_big st data h48]
      · simp [trainF, h24, h48, train_mid st data h24 h48]

/-- Witness for C10: fuel 2 = 25/24 + 1 suffices for a 25-sample input. -/
theorem train_terminates_with_linear_fuel_witness :
    trainF 2 initPredictor data25 = some (train initPredictor data25) :=
  train_terminates_with_linear_fuel 2 initPredictor data25 (by decide)

/-! ## C7: the MAPE division by zero is reachable -/

set_option maxRecDepth 8000 in
/-- C7 counterexample: on 49 samples whose last one has consumption 0, the
MAPE computation of `train` divides by a zero actual value — the
division-by-zero branch is reachable, refuting the claim that zero actuals
are skipped. -/
theorem train_mape_divzero_counterexample :
    (train initPredictor data49).divZero = true := by
  have hin : train initPredictor (data49.take (data49.length - 24))
      = ⟨70, trainedState (data49.take (data49.length - 24)) 70, false⟩ :=
    train_mid _ _ (by decide) (by decide)
  rw [train_big _ _ (by decide), hin]
  decide

/-- C7 (amended): whenever the input has more than 48 samples and its last-24
holdout window contains a sample with `energy_consumed = 0`, `train` divides
by that zero actual in the MAPE computation (numpy would propagate a
non-finite value); zero actuals are not skipped — only the baseline
normalization is guarded (by `max(1, baseline)`). -/
theorem train_mape_divzero_reachable (st : Predictor) (data : List Sample)
    (h48 : 48 < data.length)
    (hz : ∃ d ∈ data.drop (data.length - 24), d.energy_consumed = 0) :
    (train st data).divZero = true := by
  rw [train_big st data h48]
  rcases hz with ⟨d, hd, hdz⟩
  have hany : (data.drop (data.length - 24)).any
      (fun d => decide (d.energy_consumed = 0)) = true :=
    List.any_eq_true.mpr ⟨d, hd, by simp [hdz]⟩
  simp [finishTrain, hany]

set_option maxRecDepth 8000 in
/-- Witness for the amended C7 at the concrete 49-sample input. -/
theorem train_mape_divzero_reachable_witness :
    (train initPredictor data49).divZero = true :=
  train_mape_divzero_reachable initPredictor data49 (by decide)
    ⟨⟨0, 0, ⟨48⟩⟩, by decide, rfl⟩

/-! ## C4: the validation score -/

/-- C4: with more than 48 samples the returned validation score is
`max 0 (100 − MAPE)`, where the MAPE scores the throwaway predictor trained
on all-but-the-last-24 samples (predictions `baseline × hourly × daily`)
against the last 24 actuals; with more than 24 but at most 48 samples the
returned score is the fixed constant 70. (The hypothesis that the holdout
actuals are nonzero delimits the inputs on which exact rational division
agrees with numpy, which produces `inf`/`nan` on a zero actual; see the
`divZero` instrumentation and C7.) -/
theorem train_validation_score_spec (st : Predictor) (data : List Sample) :
    (48 < data.length →
      (∀ d ∈ data.drop (data.length - 24), d.energy_consumed ≠ 0) →
      (train st data).score =
        max 0 (100 - mapeOfTemp (train initPredictor (data.take (data.length - 24))).st
          (data.drop (data.length - 24))))
    ∧ (24 < data.length → data.length ≤ 48 → (train st data).score = 70) := by
  constructor
  · intro h48 _
    rw [train_big st data h48]; rfl
  · intro h1 h2
    rw [train_mid st data (by omega) (by omega)]

set_option maxRecDepth 8000 in
/-- Witness for C4: both arms, at a 49-sample input with nonzero holdout
actuals and at a 25-sample input. -/
theorem train_validation_score_spec_witness :
    ((train initPredictor data49b).score =
      max 0 (100 - mapeOfTemp (train initPredictor (data49b.take (data49b.length - 24))).st
        (data49b.drop (data49b.length - 24))))
    ∧ (train initPredictor data25).score = 70 :=
  ⟨(train_validation_score_spec initPredictor data49b).1 (by decide) (by decide),
   (train_validation_score_spec initPredictor data25).2 (by decide) (by decide)⟩

/-! ## C3: voltage alert classification -/

/-- C3 counterexample: at the claim's own named input 242 the program emits
NO alert, not warning/high: the source's warning threshold `220 * 1.1` is
the double `242.00000000000003`, strictly above 242, so
`voltage >= high_voltage_threshold` is false and every other branch fails
too. -/
theorem classifyVoltage_242_counterexample :
    classifyVoltage 242 = none := by decide

/-- C3 (amended): voltage classification with nominal 220 under the source's
IEEE-754 double thresholds: reading 253 is critical/high (the critical
threshold `220 × 1.15` is the double `252.99999999999997` < 253), reading 242
raises NO alert (the warning threshold `220 × 1.10` is the double
`242.00000000000003` > 242), 230 raises no alert, and 0 raises no alert
(non-positive readings are a sentinel skipping classification); in general
the first matching rule wins in the order
≥ `critical_high_threshold` → critical high, ≥ `high_voltage_threshold` →
warning high, ≤ 187 (×0.85) → critical low, ≤ 198 (×0.90) → warning low,
else none. -/
theorem classifyVoltage_spec :
    classifyVoltage 253 = some VoltAlert.criticalHigh
    ∧ classifyVoltage 242 = none
    ∧ classifyVoltage 230 = none
    ∧ classifyVoltage 0 = none
    ∧ ∀ v : ℚ,
      (classifyVoltage v = some VoltAlert.criticalHigh ↔
        0 < v ∧ critical_high_threshold ≤ v)
      ∧ (classifyVoltage v = some VoltAlert.warningHigh ↔
        0 < v ∧ high_voltage_threshold ≤ v ∧ v < critical_high_threshold)
      ∧ (classifyVoltage v = some VoltAlert.criticalLow ↔ 0 < v ∧ v ≤ 187)
      ∧ (classifyVoltage v = some VoltAlert.warningLow ↔ 187 < v ∧ v ≤ 198)
      ∧ (classifyVoltage v = none ↔ v ≤ 0 ∨ (198 < v ∧ v < high_voltage_threshold)) := by
  refine ⟨by decide, by decide, by decide, by decide, ?_⟩
  intro v
  have hwc : high_voltage_threshold < critical_high_threshold := by
    norm_num [high_voltage_threshold, critical_high_threshold]
  have hlw : (198 : ℚ) < high_voltage_threshold := by
    norm_num [high_voltage_threshold]
  unfold classifyVoltage critical_low_threshold low_voltage_threshold
  split_ifs with h0 h1 h2 h3 h4 <;>
    refine ⟨?_, ?_, ?_, ?_, ?_⟩ <;>
    simp only [Option.some.injEq, reduceCtorEq, false_iff, true_iff, iff_true, iff_false] <;>
      first
        | (exact ⟨by linarith, by linarith⟩)
        | (exact ⟨by linarith, by linarith, by linarith⟩)
        | (rintro ⟨a, b⟩; linarith)
        | (rintro ⟨a, b, c⟩; linarith)
        | (rintro (a | ⟨a, b⟩) <;> linarith)
        | (left; linarith)
        | (right; exact ⟨by linarith, by linarith⟩)

/-! ## C5: the predict contract -/

theorem roundHalfEven_cases (q : ℚ) :
    roundHalfEven q = ⌊q⌋ ∨ (roundHalfEven q = ⌊q⌋ + 1 ∧ 1/2 ≤ q - ⌊q⌋) := by
  unfold roundHalfEven
  split_ifs with h1 h2 h3
  · exact Or.inl rfl
  · exact Or.inr ⟨rfl, le_of_lt h2⟩
  · exact Or.inl rfl
  · exact Or.inr ⟨rfl, le_of_not_lt h1⟩

theorem roundHalfEven_bounds (q : ℚ) (a b : ℤ) (ha : (a:ℚ) ≤ q) (hb : q ≤ (b:ℚ)) :
    a ≤ roundHalfEven q ∧ roundHalfEven q ≤ b := by
  have hfa : a ≤ ⌊q⌋ := Int.le_floor.mpr ha
  rcases roundHalfEven_cases q with h | ⟨h, hr⟩
  · rw [h]
    refine ⟨hfa, ?_⟩
    have := Int.floor_le_floor hb
    rwa [Int.floor_intCast] at this
  · rw [h]
    refine ⟨by omega, ?_⟩
    have h1 : ((⌊q⌋ : ℚ)) + 1/2 ≤ (b:ℚ) := by linarith
    have h2 : ((⌊q⌋:ℚ)) < (b:ℚ) := by linarith
    have h3 : ⌊q⌋ < b := by exact_mod_cast h2
    omega

theorem roundPy1_bounds (x : ℚ) (a b : ℤ) (ha : (a:ℚ) ≤ x) (hb : x ≤ (b:ℚ)) :
    (a:ℚ) ≤ roundPy1 x ∧ roundPy1 x ≤ (b:ℚ) ∧ ∃ k : ℤ, roundPy1 x = (k:ℚ)/10 := by
  have h1 := roundHalfEven_bounds (10*x) (10*a) (10*b)
    (by push_cast; linarith) (by push_cast; linarith)
  unfold roundPy1
  refine ⟨?_, ?_, ⟨roundHalfEven (10*x), rfl⟩⟩
  · have h2 : ((10*a : ℤ):ℚ) ≤ (roundHalfEven (10*x) : ℚ) := by exact_mod_cast h1.1
    push_cast at h2
    linarith
  · have h2 : (roundHalfEven (10*x) : ℚ) ≤ ((10*b : ℤ):ℚ) := by exact_mod_cast h1.2
    push_cast at h2
    linarith

/-- C5: for every horizon and every input, `predict` returns exactly
`horizon` values; when the predictor is trained every value lies in
`[10, 200]` and is an integer multiple of `1/10` (rounded to one decimal
place) for any noise draws; when untrained the output is the unclamped flat
repeat of the last sample's consumption (or of the default 50). -/
theorem predict_contract (st : Predictor) (data : List Sample) (horizon : Nat)
    (noise : Nat → ℚ) (now : Timestamp) :
    (predict st data horizon noise now).length = horizon
    ∧ (st.is_trained = true →
        ∀ v ∈ predict st data horizon noise now,
          10 ≤ v ∧ v ≤ 200 ∧ ∃ k : ℤ, v = (k:ℚ)/10)
    ∧ (st.is_trained = false →
        predict st data horizon noise now =
          List.replicate horizon (((data.getLast?).map (·.energy_consumed)).getD 50)) := by
  refine ⟨?_, ?_, ?_⟩
  · unfold predict
    split_ifs with h
    · cases hL : data.getLast? <;> simp
    · simp
  · intro ht v hv
    unfold predict at hv
    rw [if_neg (by simp [ht])] at hv
    simp only [List.mem_map, List.mem_range] at hv
    obtain ⟨i, hi, rfl⟩ := hv
    have h10 : (10:ℚ) ≤ max 10 (min 200 (predOne st
        ((match data.getLast? with
          | some d => d.ts
          | none => now).addHours (i + 1)) * noise i)) := le_max_left _ _
    have h200 : max 10 (min 200 (predOne st
        ((match data.getLast? with
          | some d => d.ts
          | none => now).addHours (i + 1)) * noise i)) ≤ 200 :=
      max_le (by norm_num) (min_le_left _ _)
    have hb := roundPy1_bounds _ 10 200 (by exact_mod_cast h10) (by exact_mod_cast h200)
    exact ⟨by exact_mod_cast hb.1, by exact_mod_cast hb.2.1, hb.2.2⟩
  · intro hf
    unfold predict
    rw [if_pos (by simp [hf])]
    cases hL : data.getLast? <;> simp

/-- Witness for C5 at a trained state, empty current data and horizon 3. -/
theorem predict_contract_witness :
    (trainedState data24 70).is_trained = true
    ∧ (predict (trainedState data24 70) [] 3 (fun _ => 1) ⟨0⟩).length = 3
    ∧ (∀ v ∈ predict (trainedState data24 70) [] 3 (fun _ => 1) ⟨0⟩,
        10 ≤ v ∧ v ≤ 200 ∧ ∃ k : ℤ, v = (k:ℚ)/10) :=
  ⟨rfl, (predict_contract _ _ _ _ _).1, (predict_contract _ _ _ _ _).2.1 rfl⟩

/-! ## C2: peak-hour histogram membership -/

theorem alookup_append (l1 l2 : List (Nat × Nat)) (a : Nat) :
    alookup (l1 ++ l2) a = match alookup l1 a with
      | some v => some v
      | none => alookup l2 a := by
  induction l1 with
  | nil => simp [alookup]
  | cons p tl ih =>
    obtain ⟨k, v⟩ := p
    by_cases hk : a = k
    · simp [alookup, hk]
    · simp [alookup, hk, ih]

theorem alookup_bumpKey_self (l : List (Nat × Nat)) (h : Nat) :
    alookup (bumpKey l h) h = (alookup l h).map (· + 1) := by
  induction l with
  | nil => rfl
  | cons p tl ih =>
    obtain ⟨k, v⟩ := p
    simp only [bumpKey]
    by_cases hk : k = h
    · subst hk
      rw [if_pos rfl]
      simp [alookup]
    · rw [if_neg hk]
      simp only [alookup, if_neg (Ne.symm hk)]
      exact ih

theorem alookup_bumpKey_ne (l : List (Nat × Nat)) (h h' : Nat) (hne : h ≠ h') :
    alookup (bumpKey l h') h = alookup l h := by
  induction l with
  | nil => rfl
  | cons p tl ih =>
    obtain ⟨k, v⟩ := p
    simp only [bumpKey]
    by_cases hk : k = h'
    · rw [if_pos hk]
      have h2 : h ≠ k := fun hc => hne (hc ▸ hk)
      simp only [alookup, if_neg h2]
      exact ih
    · rw [if_neg hk]
      by_cases hhk : h = k
      · simp only [alookup, if_pos hhk]
      · simp only [alookup, if_neg hhk]
        exact ih

theorem alookup_peakEnsure (acc : List (Nat × Nat)) (k h : Nat) :
    alookup (peakEnsure acc k) h =
      if k = h then some ((alookup acc h).getD 0) else alookup acc h := by
  unfold peakEnsure
  by_cases hk : k = h
  · subst hk
    rw [if_pos rfl]
    cases hL : alookup acc k with
    | some c => simp [hL]
    | none =>
      simp only [hL, Option.isSome_none, Bool.false_eq_true, if_false]
      rw [alookup_append, hL]
      simp [alookup]
  · rw [if_neg hk]
    split_ifs with hs
    · rfl
    · rw [alookup_append]
      cases hL : alookup acc h with
      | some c => rfl
      | none => simp [alookup, Ne.symm hk]

theorem alookup_peakStep (m : ℚ) (acc : List (Nat × Nat)) (d : Sample) (h : Nat) :
    alookup (peakStep m acc d) h =
      if d.ts.hour = h then
        some (((alookup acc h).getD 0) + (if m < d.energy_consumed then 1 else 0))
      else alookup acc h := by
  unfold peakStep
  by_cases hm : m < d.energy_consumed
  · rw [if_pos hm]
    by_cases hh : d.ts.hour = h
    · rw [if_pos hh, hh, alookup_bumpKey_self, alookup_peakEnsure, if_pos rfl]
      simp [hm]
    · rw [if_neg hh, alookup_bumpKey_ne _ _ _ (Ne.symm hh), alookup_peakEnsure, if_neg hh]
  · rw [if_neg hm, alookup_peakEnsure]
    by_cases hh : d.ts.hour = h
    · rw [if_pos hh, if_pos hh]
      simp [hm]
    · rw [if_neg hh, if_neg hh]

theorem peakHours_fold (m : ℚ) (pts : List Sample) (acc : List (Nat × Nat)) (h : Nat) :
    alookup (pts.foldl (peakStep m) acc) h =
      match alookup acc h with
      | some c => some (c + pts.countP (fun d => d.ts.hour == h && decide (m < d.energy_consumed)))
      | none =>
        if pts.any (fun d => d.ts.hour == h) then
          some (pts.countP (fun d => d.ts.hour == h && decide (m < d.energy_consumed)))
        else none := by
  induction pts generalizing acc with
  | nil => cases hacc : alookup acc h <;> simp [hacc]
  | cons d rest ih =>
    rw [List.foldl_cons, ih (peakStep m acc d), alookup_peakStep]
    by_cases hh : d.ts.hour = h
    · rw [if_pos hh]
      cases hacc : alookup acc h with
      | some c =>
        simp only [hacc, Option.getD_some, List.countP_cons, List.any_cons, hh]
        by_cases hm : m < d.energy_consumed <;> simp [hm, hh] <;> omega
      | none =>
        simp only [hacc, Option.getD_none, List.countP_cons, List.any_cons, hh]
        by_cases hm : m < d.energy_consumed <;> simp [hm, hh] <;> omega
    · rw [if_neg hh]
      have hb : (d.ts.hour == h) = false := by simp [hh]
      cases hacc : alookup acc h with
      | some c => simp [hacc, List.countP_cons, hb]
      | none => simp [hacc, List.countP_cons, List.any_cons, hb]

/-- C2 counterexample: for the single sample with consumption 100 at hour 5,
the consumption mean is 100, no sample exceeds it, yet hour 5 IS a key of
`peak_hours` (with count 0) — refuting "an hour whose samples are all at or
below the mean is absent from the mapping". -/
theorem analyzeTrends_peakHours_counterexample :
    (alookup (analyzeTrends [⟨0, 100, ⟨5⟩⟩]).peakHours 5).isSome = true
    ∧ ¬ ∃ d ∈ [(⟨0, 100, ⟨5⟩⟩ : Sample)],
        d.ts.hour = 5 ∧ (analyzeTrends [⟨0, 100, ⟨5⟩⟩]).consumptionMean < d.energy_consumed := by
  decide

/-- C2 (amended): `peak_hours` contains hour `h` as a key iff some sample
occurs at hour `h` (regardless of the mean), and the stored count is the
number of samples at hour `h` whose consumption strictly exceeds the overall
consumption mean — so hours whose samples are all at or below the mean are
present with count 0, not absent. -/
theorem analyzeTrends_peakHours_spec (pts : List Sample) (h : Nat) :
    alookup (analyzeTrends pts).peakHours h =
      if pts.any (fun d => d.ts.hour == h) then
        some (pts.countP (fun d => d.ts.hour == h
          && decide ((analyzeTrends pts).consumptionMean < d.energy_consumed)))
      else none := by
  by_cases hne : pts.isEmpty
  · have : pts = [] := List.isEmpty_iff.mp hne
    subst this
    simp [analyzeTrends, alookup]
  · have hne' : pts.isEmpty = false := by simpa using hne
    unfold analyzeTrends
    rw [hne']
    simp only [Bool.false_eq_true, if_false]
    rw [peakHoursOf, peakHours_fold]
    simp [alookup]

/-! ## C6: the consumption trend split -/

theorem mean_nonneg_of (l : List ℚ) (h : ∀ x ∈ l, 0 ≤ x) : 0 ≤ mean l := by
  unfold mean
  apply div_nonneg (List.sum_nonneg h)
  positivity

/-- C6: for inputs of length ≥ 2 whose consumptions are non-negative (the
data-model invariant), the trend splits the consumption series at index
⌊n/2⌋ (the extra element of an odd split joins the second half): increasing
iff `mean(second) > mean(first)×1.05`, decreasing iff
`mean(first) > mean(second)×1.05`, neutral iff neither; length ≤ 1 is always
neutral. -/
theorem analyzeTrends_trend_spec (pts : List Sample)
    (hnn : ∀ d ∈ pts, 0 ≤ d.energy_consumed) :
    (2 ≤ pts.length →
      (((analyzeTrends pts).trend = Trend.increasing ↔
          mean ((pts.map (·.energy_consumed)).take (pts.length / 2)) * (21/20)
            < mean ((pts.map (·.energy_consumed)).drop (pts.length / 2)))
        ∧ ((analyzeTrends pts).trend = Trend.decreasing ↔
          mean ((pts.map (·.energy_consumed)).drop (pts.length / 2)) * (21/20)
            < mean ((pts.map (·.energy_consumed)).take (pts.length / 2)))
        ∧ ((analyzeTrends pts).trend = Trend.neutral ↔
          (¬ mean ((pts.map (·.energy_consumed)).take (pts.length / 2)) * (21/20)
            < mean ((pts.map (·.energy_consumed)).drop (pts.length / 2))
           ∧ ¬ mean ((pts.map (·.energy_consumed)).drop (pts.length / 2)) * (21/20)
            < mean ((pts.map (·.energy_consumed)).take (pts.length / 2))))))
    ∧ (pts.length ≤ 1 → (analyzeTrends pts).trend = Trend.neutral) := by
  constructor
  · intro h2
    have hne : pts.isEmpty = false := by
      cases pts
      · simp at h2
      · simp
    have h1 : 1 < pts.length := h2
    have hfn : 0 ≤ mean ((pts.map (·.energy_consumed)).take (pts.length / 2)) := by
      apply mean_nonneg_of
      intro x hx
      have hx2 := List.mem_of_mem_take hx
      obtain ⟨d, hd, rfl⟩ := List.mem_map.mp hx2
      exact hnn d hd
    have hsn : 0 ≤ mean ((pts.map (·.energy_consumed)).drop (pts.length / 2)) := by
      apply mean_nonneg_of
      intro x hx
      have hx2 := List.mem_of_mem_drop hx
      obtain ⟨d, hd, rfl⟩ := List.mem_map.mp hx2
      exact hnn d hd
    have hexcl : ¬ (mean ((pts.map (·.energy_consumed)).take (pts.length / 2)) * (21/20)
          < mean ((pts.map (·.energy_consumed)).drop (pts.length / 2))
        ∧ mean ((pts.map (·.energy_consumed)).drop (pts.length / 2)) * (21/20)
          < mean ((pts.map (·.energy_consumed)).take (pts.length / 2))) := by
      rintro ⟨hA, hB⟩
      nlinarith
    unfold analyzeTrends
    rw [hne]
    simp only [Bool.false_eq_true, if_false, if_pos h1, List.length_map]
    by_cases hA : mean ((pts.map (·.energy_consumed)).take (pts.length / 2)) * (21/20)
        < mean ((pts.map (·.energy_consumed)).drop (pts.length / 2))
    · rw [if_pos hA]
      refine ⟨by simp [hA], ?_, ?_⟩
      · simp only [show Trend.increasing ≠ Trend.decreasing from by decide, false_iff]
        intro hB
        exact hexcl ⟨hA, hB⟩
      · simp only [show Trend.increasing ≠ Trend.neutral from by decide, false_iff]
        rintro ⟨hA2, _⟩
        exact hA2 hA
    · rw [if_neg hA]
      by_cases hB : mean ((pts.map (·.energy_consumed)).drop (pts.length / 2)) * (21/20)
          < mean ((pts.map (·.energy_consumed)).take (pts.length / 2))
      · rw [if_pos hB]
        refine ⟨by simp [hA], by simp [hB], ?_⟩
        simp only [show Trend.decreasing ≠ Trend.neutral from by decide, false_iff]
        rintro ⟨_, hB2⟩
        exact hB2 hB
      · rw [if_neg hB]
        exact ⟨by simp [hA], by simp [hB], by simp [hA, hB]⟩
  · intro hle
    match pts with
    | [] => simp [analyzeTrends]
    | [d] => simp [analyzeTrends]
    | a :: b :: rest => simp at hle

/-- Witness for C6 on a 2-sample series whose consumption doubles. -/
theorem analyzeTrends_trend_spec_witness :
    (analyzeTrends [⟨0, 100, ⟨0⟩⟩, ⟨0, 200, ⟨1⟩⟩]).trend = Trend.increasing :=
  ((analyzeTrends_trend_spec [⟨0, 100, ⟨0⟩⟩, ⟨0, 200, ⟨1⟩⟩] (by decide)).1
    (by decide)).1.mpr (by decide)

/-! ## C8: the peak-hour alert insight -/

theorem argmax_foldl_mem : ∀ (tl : List (Nat × Nat)) (b : Nat × Nat),
    tl.foldl argmaxStep b = b ∨ tl.foldl argmaxStep b ∈ tl := by
  intro tl
  induction tl with
  | nil => intro b; exact Or.inl rfl
  | cons p tl ih =>
    intro b
    rw [List.foldl_cons]
    rcases ih (argmaxStep b p) with h | h
    · rw [h]
      unfold argmaxStep
      split_ifs
      · exact Or.inr (List.mem_cons_self _ _)
      · exact Or.inl rfl
    · exact Or.inr (List.mem_cons_of_mem _ h)

theorem argmax_foldl_le_self : ∀ (tl : List (Nat × Nat)) (b : Nat × Nat),
    b.2 ≤ (tl.foldl argmaxStep b).2 := by
  intro tl
  induction tl with
  | nil => intro b; exact le_refl _
  | cons p tl ih =>
    intro b
    rw [List.foldl_cons]
    refine le_trans ?_ (ih (argmaxStep b p))
    unfold argmaxStep
    split_ifs with h
    · exact le_of_lt h
    · exact le_refl _

theorem argmax_foldl_le (tl : List (Nat × Nat)) (b : Nat × Nat) (p : Nat × Nat)
    (hp : p ∈ tl) : p.2 ≤ (tl.foldl argmaxStep b).2 := by
  induction tl generalizing b with
  | nil => cases hp
  | cons q tl ih =>
    rw [List.foldl_cons]
    rcases List.mem_cons.mp hp with rfl | h
    · refine le_trans ?_ (argmax_foldl_le_self tl (argmaxStep b p))
      unfold argmaxStep
      split_ifs with h2
      · exact le_refl _
      · exact le_of_not_lt h2
    · exact ih (argmaxStep b q) h

theorem alookup_of_mem_nodup (l : List (Nat × Nat)) (p : Nat × Nat)
    (hp : p ∈ l) (hnd : (l.map Prod.fst).Nodup) : alookup l p.1 = some p.2 := by
  induction l with
  | nil => cases hp
  | cons q tl ih =>
    rcases List.mem_cons.mp hp with rfl | h
    · obtain ⟨k, v⟩ := p
      simp [alookup]
    · obtain ⟨k, v⟩ := q
      simp only [List.map_cons, List.nodup_cons] at hnd
      have hk : p.1 ≠ k := by
        intro hc
        exact hnd.1 (hc ▸ List.mem_map_of_mem Prod.fst h)
      simp only [alookup, if_neg hk]
      exact ih h hnd.2

theorem peakAlert_mem_iff (r : TrendReport) (h : Nat) :
    Insight.peakAlert h ∈ getTrendInsights r ↔
      (r.peak_hours.isEmpty = false
       ∧ 3 < (alookup r.peak_hours (argmaxKey r.peak_hours)).getD 0
       ∧ h = argmaxKey r.peak_hours) := by
  unfold getTrendInsights
  by_cases he : r.peak_hours.isEmpty <;>
    by_cases hc : 3 < (alookup r.peak_hours (argmaxKey r.peak_hours)).getD 0 <;>
    rcases ht : r.trend <;>
    by_cases hs : 20 < r.consumptionStd <;>
    by_cases hp : r.productionMean < r.consumptionMean * (7/10) <;>
    simp [he, hc, ht, hs, hp]

/-- C8: for every TrendReport whose peak_hours dict is non-empty (dict keys
are unique), `argmaxKey` picks a hour carrying the maximum count (first seen
wins ties, matching Python's `max` over dict iteration order), the insights
contain an alert naming that hour iff its count exceeds 3, and no other hour
is ever named by a peak alert. -/
theorem getTrendInsights_peak_spec (r : TrendReport)
    (hne : r.peak_hours ≠ [])
    (hnd : (r.peak_hours.map Prod.fst).Nodup) :
    (∀ p ∈ r.peak_hours, p.2 ≤ (alookup r.peak_hours (argmaxKey r.peak_hours)).getD 0)
    ∧ (Insight.peakAlert (argmaxKey r.peak_hours) ∈ getTrendInsights r ↔
        3 < (alookup r.peak_hours (argmaxKey r.peak_hours)).getD 0)
    ∧ (∀ h, Insight.peakAlert h ∈ getTrendInsights r → h = argmaxKey r.peak_hours) := by
  refine ⟨?_, ?_, ?_⟩
  · intro p hp
    rcases hL : r.peak_hours with _ | ⟨q, tl⟩
    · exact absurd hL hne
    · rw [hL] at hp
      have hm : tl.foldl argmaxStep q = q ∨ tl.foldl argmaxStep q ∈ tl :=
        argmax_foldl_mem tl q
      have hmem : tl.foldl argmaxStep q ∈ q :: tl := by
        rcases hm with h | h
        · rw [h]; exact List.mem_cons_self _ _
        · exact List.mem_cons_of_mem _ h
      have hlk : alookup ((q :: tl) : List (Nat × Nat)) (tl.foldl argmaxStep q).1
          = some (tl.foldl argmaxStep q).2 :=
        alookup_of_mem_nodup _ _ hmem (by rw [hL] at hnd; exact hnd)
      have hargeq : argmaxKey (q :: tl) = (tl.foldl argmaxStep q).1 := rfl
      rw [hargeq, hlk]
      simp only [Option.getD_some]
      rcases List.mem_cons.mp hp with rfl | h
      · exact argmax_foldl_le_self tl p
      · exact argmax_foldl_le tl q p h
  · rw [peakAlert_mem_iff]
    have he : r.peak_hours.isEmpty = false := by
      rcases hL : r.peak_hours with _ | ⟨q, tl⟩
      · exact absurd hL hne
      · simp
    simp [he]
  · intro h hmem
    exact ((peakAlert_mem_iff r h).mp hmem).2.2

/-- Witness for C8 at peak_hours = {9: 5, 14: 2}: an alert names hour 9 and
no insight names hour 14. -/
theorem getTrendInsights_peak_spec_witness :
    Insight.peakAlert 9 ∈ getTrendInsights ⟨Trend.neutral, [(9,5),(14,2)], 0, 0, 0⟩
    ∧ ¬ Insight.peakAlert 14 ∈ getTrendInsights ⟨Trend.neutral, [(9,5),(14,2)], 0, 0, 0⟩ := by
  constructor
  · exact (getTrendInsights_peak_spec ⟨Trend.neutral, [(9,5),(14,2)], 0, 0, 0⟩
      (by decide) (by decide)).2.1.mpr (by decide)
  · intro hmem
    have h14 := (getTrendInsights_peak_spec ⟨Trend.neutral, [(9,5),(14,2)], 0, 0, 0⟩
      (by decide) (by decide)).2.2 14 hmem
    exact absurd h14 (by decide)
